import Mathlib

set_option maxHeartbeats 1000000
set_option maxRecDepth 4000

/-!
Shallow embedding of the text-styler inline style engine (StyleManager):
the markup segmenter (parseSelection), the attribute codec
(extractClasses / extractStyles / the CSS-variable parsing), the activation
resolver (isStyleActiveInSegments and the value-based check in toggleStyle),
the run reconciler (applyModificationToSegment) and the facade operations
(toggleStyle, removeAllStyling, plus the older regex-based removeAllStyling
variant).  Strings are modelled as `List Char`; JavaScript objects holding
CSS custom properties are modelled as association lists with JS semantics
(assignment updates in place, `delete` removes the key, truthiness treats
the empty string as false).  Dead fields of SelectionSegment (numeric
offsets) are omitted; every field the engine reads is modelled.
-/

abbrev Str := List Char

def str (s : String) : Str := s.data

def isWs (c : Char) : Bool := c.isWhitespace

/-- JS String.prototype.trim. -/
def trimWs (l : Str) : Str := ((l.dropWhile isWs).reverse.dropWhile isWs).reverse

/-- JS String.prototype.toLowerCase (ASCII-faithful). -/
def lowerStr (l : Str) : Str := l.map Char.toLower

/-- JS String.prototype.split with a one-character separator
(keeps empty pieces, `"".split` gives one empty piece). -/
def splitChar (sep : Char) : Str → List Str
  | [] => [[]]
  | c :: r =>
    if c = sep then [] :: splitChar sep r
    else
      match splitChar sep r with
      | h :: t => (c :: h) :: t
      | [] => [[c]]

/-- JS Array.prototype.includes on lists of strings. -/
def memB (x : Str) : List Str → Bool
  | [] => false
  | y :: r => if y = x then true else memB x r

/-- JS Array.prototype.filter(cls => cls !== x). -/
def removeCls (x : Str) : List Str → List Str
  | [] => []
  | y :: r => if y = x then removeCls x r else y :: removeCls x r

/-- JS `[...new Set(a)]`: de-duplication keeping first occurrences. -/
def dedupAux (seen : List Str) : List Str → List Str
  | [] => []
  | y :: r => if memB y seen then dedupAux seen r else y :: dedupAux (y :: seen) r

def dedupKeep (l : List Str) : List Str := dedupAux [] l

/-- Scan up to the first occurrence of `stop`; `none` when it is absent. -/
def takeUntil (stop : Char) : Str → Option (Str × Str)
  | [] => none
  | c :: r =>
    if c = stop then some ([], r)
    else
      match takeUntil stop r with
      | some (m, rest) => some (c :: m, rest)
      | none => none

/-- JS String.prototype.indexOf for a single character. -/
def firstIdx (ch : Char) : Str → Option Nat
  | [] => none
  | c :: r => if c = ch then some 0 else (firstIdx ch r).map (· + 1)

/-- Case-insensitive literal match of `pat` (given lower-case) at the head. -/
def stripCaseless : Str → Str → Option Str
  | [], s => some s
  | _ :: _, [] => none
  | p :: pr, c :: cr => if c.toLower = p then stripCaseless pr cr else none

/-- Case-sensitive literal match of `pat` at the head. -/
def stripIfPre : Str → Str → Option Str
  | [], s => some s
  | _ :: _, [] => none
  | p :: pr, c :: cr => if c = p then stripIfPre pr cr else none

/-- First match of the regex `pat"([^"]*)"` (case-insensitive literal `pat`,
capture up to the next quote), as used for `class="..."` and `style="..."`. -/
def findCapture (pat : Str) : Str → Option Str
  | [] => none
  | s@(_ :: r) =>
    match (stripCaseless pat s).bind fun rest => (takeUntil '"' rest).map Prod.fst with
    | some cap => some cap
    | none => findCapture pat r

/-- Match of `varName\s*:\s*([^;]+)` anchored at the head of `s`
(the capture trimmed, as getCssVariableValue does). -/
def varAt (varName : Str) (s : Str) : Option Str :=
  match stripIfPre varName s with
  | none => none
  | some r1 =>
    match r1.dropWhile isWs with
    | [] => none
    | c :: r2 =>
      if c = ':' then
        let seg := r2.takeWhile (fun x => decide (x ≠ ';'))
        if seg.isEmpty then none else some (trimWs seg)
      else none

/-- First match of `varName\s*:\s*([^;]+)` anywhere in the style attribute. -/
def findVar (varName : Str) : Str → Option Str
  | [] => none
  | s@(_ :: r) =>
    match varAt varName s with
    | some v => some v
    | none => findVar varName r

/-- Match of `\s*varName\s*:` at the head (the body of the `(^|;)` anchor). -/
def boundaryVarAt (varName : Str) (s : Str) : Bool :=
  match stripIfPre varName (s.dropWhile isWs) with
  | none => false
  | some r1 =>
    match r1.dropWhile isWs with
    | c :: _ => c = ':'
    | [] => false

def hasVarAfterSemi (varName : Str) : Str → Bool
  | [] => false
  | c :: r => (if c = ';' then boundaryVarAt varName r else false) || hasVarAfterSemi varName r

/-- Shared core of the tag patterns: `span` case-insensitively, then
`[^>]*>`, after a `<` and the already-consumed optional-slash part
`sl`.  Returns the full tag (including `<` and `sl`) and the remainder. -/
def spanCore (sl : Str) : Str → Option (Str × Str)
  | a :: b :: d :: e :: r3 =>
    if a.toLower = 's' && b.toLower = 'p' && d.toLower = 'a' && e.toLower = 'n' then
      match takeUntil '>' r3 with
      | some (mid, r4) => some ('<' :: sl ++ a :: b :: d :: e :: mid ++ ['>'], r4)
      | none => none
    else none
  | _ => none

/-- Match of the tag regex `<\/?span[^>]*>` anchored at the head:
`<`, an optional `/`, `span` case-insensitively, any non-`>` characters,
then `>`.  Returns the full tag text and the remainder. -/
def matchTagAt (s : Str) : Option (Str × Str) :=
  match s with
  | [] => none
  | c :: r1 =>
    if c = '<' then
      match r1 with
      | c2 :: r2 => if c2 = '/' then spanCore [c2] r2 else spanCore [] r1
      | [] => spanCore [] r1
    else none

/-- Leftmost match of the tag regex: returns (text before the tag, tag text,
text after the tag). -/
def findFirstTag : Str → Option (Str × Str × Str)
  | [] => none
  | s@(c :: r) =>
    match matchTagAt s with
    | some (tag, rest) => some ([], tag, rest)
    | none => (findFirstTag r).map fun p => (c :: p.1, p.2.1, p.2.2)

/-! ### Data model (types.ts / constants.ts) -/

inductive StyleType where
  | bold | italic | underline | strike | color | highlight | coloredUnderline | circled
deriving DecidableEq, Fintype

/-- The span context of a SelectionSegment (offsets, which the engine never
reads, are omitted). -/
structure SpanInfo where
  startTag : Str
  classList : List Str
  style : List (Str × Str)
deriving DecidableEq

structure Segment where
  text : Str
  span : Option SpanInfo
deriving DecidableEq

structure Config where
  coloredUnderlineThickness : Nat
  circleThickness : Nat
deriving DecidableEq

/-- CSS custom properties object: association list in insertion order. -/
abbrev VarMap := List (Str × Str)

def getV (k : Str) : VarMap → Option Str
  | [] => none
  | (k1, v) :: r => if k1 = k then some v else getV k r

/-- JS object assignment: updates in place, appends when absent. -/
def setV (k v : Str) : VarMap → VarMap
  | [] => [(k, v)]
  | (k1, v1) :: r => if k1 = k then (k, v) :: r else (k1, v1) :: setV k v r

/-- JS `delete obj[k]`. -/
def delV (k : Str) : VarMap → VarMap
  | [] => []
  | (k1, v1) :: r => if k1 = k then delV k r else (k1, v1) :: delV k r

/-- JS truthiness of `obj[k]` (absent and empty string are both falsy). -/
def truthyV (m : VarMap) (k : Str) : Bool :=
  match getV k m with
  | some v => !v.isEmpty
  | none => false

/-- JS truthiness of the `value` argument (`string | null`). -/
def vTruthy : Option Str → Bool
  | some v => !v.isEmpty
  | none => false

/-- CLASS_PREFIX plus the StyleClasses entry for each style (classMap). -/
def classMap : StyleType → Str
  | .bold => str "styler-bold"
  | .italic => str "styler-italic"
  | .underline => str "styler-underline"
  | .strike => str "styler-strike"
  | .color => str "styler-colored"
  | .highlight => str "styler-highlighted"
  | .coloredUnderline => str "styler-colored-underline"
  | .circled => str "styler-circled"

def tcKey : Str := str "--styler-text-color"
def hcKey : Str := str "--styler-highlight-color"
def ucKey : Str := str "--styler-underline-color"
def utKey : Str := str "--styler-underline-thickness"
def ccKey : Str := str "--styler-circle-color"
def ctKey : Str := str "--styler-circle-thickness"

def classPat : Str := str "class=\""
def stylePat : Str := str "style=\""

/-! ### Attribute codec -/

/-- extractClasses: `/class="([^"]*)"/i`, split on spaces, drop empties. -/
def extractClasses (tag : Str) : List Str :=
  match findCapture classPat tag with
  | none => []
  | some cap => (splitChar ' ' cap).filter (fun c => !c.isEmpty)

/-- extractStyles: `/style="([^"]*)"/i`, then split on `;` and `:`,
keeping pairs whose raw key and value are both non-empty. -/
def extractStyles (tag : Str) : List (Str × Str) :=
  let sa := (findCapture stylePat tag).getD []
  (splitChar ';' sa).foldl
    (fun m part =>
      match splitChar ':' part with
      | k :: v :: _ => if !k.isEmpty && !v.isEmpty then setV (trimWs k) (trimWs v) m else m
      | _ => m) []

/-- getCssVariableValue: regex `varName\s*:\s*([^;]+)` over the style
attribute of the start tag (case-sensitive), trimmed capture. -/
def getCssVariableValue (sp : Option SpanInfo) (varName : Str) : Option Str :=
  match sp with
  | none => none
  | some info => findVar varName ((findCapture stylePat info.startTag).getD [])

/-- hasCssVariable: regex `(^|;)\s*varName\s*:` over the style attribute. -/
def hasCssVariable (sp : Option SpanInfo) (varName : Str) : Bool :=
  match sp with
  | none => false
  | some info =>
    let sa := (findCapture stylePat info.startTag).getD []
    boundaryVarAt varName sa || hasVarAfterSemi varName sa

/-! ### Markup segmenter (parseSelection) -/

def mkSpanInfo (tag : Str) : SpanInfo :=
  { startTag := tag, classList := extractClasses tag, style := extractStyles tag }

/-- `tagText.startsWith('</span')` (case-sensitive, as in the source). -/
def isCloseTag (tag : Str) : Bool := (str "</span").isPrefixOf tag

/-- The parseSelection scan loop.  The fuel argument only bounds the
number of iterations; each iteration consumes the (non-empty) matched tag,
so `s.length + 1` fuel always suffices (parseLoop_fuel below). -/
def parseLoop : Nat → Str → Option SpanInfo → List Segment
  | 0, _, _ => []
  | fuel + 1, s, ctx =>
    match findFirstTag s with
    | none => if s.isEmpty then [] else [⟨s, ctx⟩]
    | some (pre, tag, post) =>
      (if pre.isEmpty then [] else [⟨pre, ctx⟩]) ++
        parseLoop fuel post (if isCloseTag tag then none else some (mkSpanInfo tag))

/-- parseSelection, including the whole-text fallback for a non-empty
selection that produced no segments. -/
def parseSelection (s : Str) : List Segment :=
  let segs := parseLoop (s.length + 1) s none
  if segs.isEmpty && !s.isEmpty then [⟨s, none⟩] else segs

/-! ### Activation resolver -/

/-- The varChecks table of isStyleActiveInSegments. -/
def varChecks : StyleType → Option Str
  | .color => some tcKey
  | .highlight => some hcKey
  | .coloredUnderline => some ucKey
  | .circled => some ccKey
  | _ => none

/-- The varToCheck conditional chain of toggleStyle's value-based check. -/
def varToCheck : StyleType → Str
  | .coloredUnderline => ucKey
  | .color => tcKey
  | .highlight => hcKey
  | _ => ccKey

/-- One segment's contribution to isStyleActiveInSegments. -/
def segActive (st : StyleType) (value : Option Str) (seg : Segment) : Bool :=
  match seg.span with
  | none => false
  | some info =>
    let isClassActive := memB (classMap st) info.classList
    let isVarActive :=
      match varChecks st with
      | none => false
      | some tv =>
        match getCssVariableValue (some info) tv with
        | none => false
        | some vv =>
          if vTruthy value then decide (lowerStr vv = lowerStr (value.getD [])) else true
    match st with
    | .bold | .italic | .strike => isClassActive
    | .underline =>
      isClassActive &&
        !(hasCssVariable (some info) ucKey || memB (classMap .coloredUnderline) info.classList)
    | .circled => isClassActive || (isVarActive && value.isNone)
    | .color | .highlight | .coloredUnderline => isVarActive || (isClassActive && value.isNone)

def isStyleActiveInSegments (segs : List Segment) (st : StyleType) (value : Option Str) : Bool :=
  segs.any (segActive st value)

/-- The four kinds that get the nuanced value-based check in toggleStyle. -/
def isValueKind : StyleType → Bool
  | .coloredUnderline | .color | .highlight | .circled => true
  | _ => false

/-- toggleStyle's activation decision (`shouldApply`).  In the value-based
branch the loop accumulates (isSameValueActive, hasDifferentValue); the
isCurrentlyActive flag it also sets is dead there and omitted. -/
def computeShouldApply (segs : List Segment) (st : StyleType) (value : Option Str) : Bool :=
  if isValueKind st && vTruthy value then
    let r := segs.foldl
      (fun (acc : Bool × Bool) seg =>
        match getCssVariableValue seg.span (varToCheck st) with
        | some cv =>
          if lowerStr cv = lowerStr (value.getD []) then (true, acc.2) else (acc.1, true)
        | none =>
          match seg.span with
          | some info => if memB (classMap st) info.classList then (acc.1, true) else acc
          | none => acc)
      (false, false)
    !(r.1 && !r.2)
  else !(isStyleActiveInSegments segs st value)

/-! ### Run reconciler (applyModificationToSegment) -/

/-- The style-attribute re-parse at the top of applyModificationToSegment:
split the style attribute on `;` and `:`, keep keys starting with
`--styler-` (trimmed key, trimmed value defaulting to empty). -/
def stylerVarStep (m : VarMap) (part : Str) : VarMap :=
  let pieces := splitChar ':' part
  let tk := trimWs (pieces.headD [])
  if (str "--styler-").isPrefixOf tk then setV tk (trimWs ((pieces.get? 1).getD [])) m
  else m

def parseStylerVars (sp : Option SpanInfo) : VarMap :=
  match sp with
  | none => []
  | some info =>
    let sa := (findCapture stylePat info.startTag).getD []
    (splitChar ';' sa).foldl stylerVarStep []

def pxStr (n : Nat) : Str := str (toString n) ++ str "px"

/-- The apply/remove branch of applyModificationToSegment, acting on the
class list and the parsed `--styler-` variables. -/
def branchAttrs (classes0 : List Str) (vars0 : VarMap) (st : StyleType)
    (value : Option Str) (shouldApply : Bool) (cfg : Config) : List Str × VarMap :=
  let targetClass := classMap st
  if shouldApply then
    let a := if memB targetClass classes0 then classes0 else classes0 ++ [targetClass]
    if st = .color && vTruthy value then (a, setV tcKey (value.getD []) vars0)
    else if st = .highlight && vTruthy value then (a, setV hcKey (value.getD []) vars0)
    else if st = .coloredUnderline && vTruthy value then
      (removeCls (classMap .underline) a,
       setV utKey (pxStr cfg.coloredUnderlineThickness) (setV ucKey (value.getD []) vars0))
    else if st = .underline then
      (removeCls (classMap .coloredUnderline) a, delV utKey (delV ucKey vars0))
    else if st = .circled && vTruthy value then
      (a, setV ctKey (pxStr cfg.circleThickness) (setV ccKey (value.getD []) vars0))
    else (a, vars0)
  else
    let a := removeCls targetClass classes0
    if st = .color then (a, delV tcKey vars0)
    else if st = .highlight then (a, delV hcKey vars0)
    else if st = .coloredUnderline then (a, delV utKey (delV ucKey vars0))
    else if st = .underline then (a, delV utKey (delV ucKey vars0))
    else if st = .circled then (a, delV ctKey (delV ccKey vars0))
    else (a, vars0)

/-- The cleanup section of applyModificationToSegment, in source order:
orphaned underline variables, then marker classes whose backing variable
is falsy. -/
def cleanupAttrs (cs : List Str) (vs : VarMap) : List Str × VarMap :=
  let vs1 :=
    if memB (classMap .underline) cs || memB (classMap .coloredUnderline) cs then vs
    else delV utKey (delV ucKey vs)
  let vs2 :=
    if memB (classMap .underline) cs || !memB (classMap .coloredUnderline) cs then
      delV utKey (delV ucKey vs1)
    else vs1
  let cs3 := if truthyV vs2 tcKey then cs else removeCls (classMap .color) cs
  let cs4 := if truthyV vs2 hcKey then cs3 else removeCls (classMap .highlight) cs3
  let p5 : List Str × VarMap :=
    if truthyV vs2 ucKey then (cs4, vs2)
    else (removeCls (classMap .coloredUnderline) cs4, delV utKey vs2)
  let p6 : List Str × VarMap :=
    if truthyV p5.2 ccKey then p5
    else (removeCls (classMap .circled) p5.1, delV ctKey p5.2)
  p6

def reconcileAttrs (classes0 : List Str) (vars0 : VarMap) (st : StyleType)
    (value : Option Str) (shouldApply : Bool) (cfg : Config) : List Str × VarMap :=
  let p := branchAttrs classes0 vars0 st value shouldApply cfg
  cleanupAttrs p.1 p.2

/-- The span reconstruction at the end of applyModificationToSegment. -/
def serializeSpan (cs : List Str) (vs : VarMap) (text : Str) : Str :=
  let varString := List.intercalate (str " ") (vs.map fun kv => kv.1 ++ str ": " ++ kv.2 ++ str ";")
  let styleVal := trimWs varString
  let uniq := (dedupKeep cs).filter (fun c => !c.isEmpty)
  if !uniq.isEmpty || !styleVal.isEmpty then
    str "<span" ++
      (if !uniq.isEmpty then str " class=\"" ++ List.intercalate (str " ") uniq ++ str "\"" else []) ++
      (if !styleVal.isEmpty then str " style=\"" ++ styleVal ++ str "\"" else []) ++
      str ">" ++ text ++ str "</span>"
  else text

def applyModificationToSegment (text : Str) (sp : Option SpanInfo) (st : StyleType)
    (value : Option Str) (shouldApply : Bool) (cfg : Config) : Str :=
  let classes0 := match sp with | some info => info.classList | none => []
  let vars0 := parseStylerVars sp
  let p := reconcileAttrs classes0 vars0 st value shouldApply cfg
  serializeSpan p.1 p.2 text

def createStyledSpan (text : Str) (st : StyleType) (value : Option Str) (cfg : Config) : Str :=
  applyModificationToSegment text none st value true cfg

/-! ### Style engine facade -/

inductive ToggleResult where
  | replaced (newText : Str) (cursor : Option Nat)
  | selectionRequired
deriving DecidableEq

/-- toggleStyle on the selected text.  `replaced t c` models
`editor.replaceRange(t, from, to)` plus an optional `setCursor` at offset
`c` from the selection start; `selectionRequired` models the warning-notice
early return with no mutation. -/
def toggleStyle (selectedText : Str) (st : StyleType) (value : Option Str)
    (cfg : Config) : ToggleResult :=
  if selectedText.isEmpty && (st = .color || st = .highlight) && vTruthy value then
    let sp := createStyledSpan [] st value cfg
    .replaced sp (some ((match firstIdx '>' sp with | some i => i + 1 | none => 0)))
  else if selectedText.isEmpty && !(st = .color) && !(st = .highlight) then
    .selectionRequired
  else
    let segs := parseSelection selectedText
    let sa := computeShouldApply segs st value
    .replaced
      (segs.foldl (fun acc seg => acc ++ applyModificationToSegment seg.text seg.span st value sa cfg) [])
      none

/-- removeAllStyling (segmenter-based variant): concatenate each parsed
segment's text. -/
def removeAllStyling (s : Str) : Str :=
  (parseSelection s).foldl (fun acc seg => acc ++ seg.text) []

/-! ### Older regex-based removeAllStyling
(`originalContent.replace(/<span[^>]*>|<\/span>/gi, '')`). -/

/-- Match of `<span[^>]*>` (case-insensitive) at the head. -/
def matchOpenAt (s : Str) : Option (Str × Str) :=
  match s with
  | [] => none
  | c :: r1 => if c = '<' then spanCore [] r1 else none

/-- Match of the literal `</span>` (case-insensitive) at the head. -/
def matchCloseAt (s : Str) : Option (Str × Str) :=
  match s with
  | c0 :: c1 :: c2 :: c3 :: c4 :: c5 :: c6 :: r =>
    if c0 = '<' && c1 = '/' && c2.toLower = 's' && c3.toLower = 'p' &&
        c4.toLower = 'a' && c5.toLower = 'n' && c6 = '>' then
      some ([c0, c1, c2, c3, c4, c5, c6], r)
    else none
  | _ => none

def matchReplAt (s : Str) : Option (Str × Str) :=
  match matchOpenAt s with
  | some p => some p
  | none => matchCloseAt s

def findFirstRepl : Str → Option (Str × Str × Str)
  | [] => none
  | s@(c :: r) =>
    match matchReplAt s with
    | some (tag, rest) => some ([], tag, rest)
    | none => (findFirstRepl r).map fun p => (c :: p.1, p.2.1, p.2.2)

/-- Global replace with the empty string: drop every leftmost
non-overlapping match, left to right.  Fuel as in parseLoop. -/
def replLoop : Nat → Str → Str
  | 0, s => s
  | fuel + 1, s =>
    match findFirstRepl s with
    | none => s
    | some (pre, _, post) => pre ++ replLoop fuel post

def removeAllStylingRegex (s : Str) : Str := replLoop (s.length + 1) s

/-! ### Formulas taken from the specification text, for comparison with the
code's activation decision (refinement claims C1 and C2). -/

/-- Modelled from the spec: `shouldApply = NOT (style attribute present on
every run that has non-empty text)` for boolean-only kinds and value-absent
requests (the attribute being the style's class on the run's wrapper). -/
def specShouldApplyBoolean (segs : List Segment) (st : StyleType) : Bool :=
  !(segs.all fun seg =>
    seg.text.isEmpty ||
      (match seg.span with
       | some info => memB (classMap st) info.classList
       | none => false))

/-- Modelled from the spec: for a value-bearing kind with a supplied value,
`shouldApply = false` iff every text-bearing run's value slot equals the
requested value case-insensitively. -/
def specShouldApplyValued (segs : List Segment) (st : StyleType) (v : Str) : Bool :=
  !(segs.all fun seg =>
    seg.text.isEmpty ||
      (match getCssVariableValue seg.span (varToCheck st) with
       | some cv => decide (lowerStr cv = lowerStr v)
       | none => false))

/-! ### Lemmas about the list and object helpers -/

theorem memB_removeCls (x y : Str) (l : List Str) :
    memB x (removeCls y l) = if x = y then false else memB x l := by
  induction l with
  | nil => simp [removeCls, memB]
  | cons c r ih =>
    by_cases h1 : c = y <;> by_cases h2 : c = x <;>
      simp_all [removeCls, memB]

theorem memB_removeCls_le {x y : Str} {l : List Str}
    (h : memB x (removeCls y l) = true) : memB x l = true := by
  rw [memB_removeCls] at h
  split at h
  · exact absurd h (by simp)
  · exact h

theorem memB_append (x : Str) (l1 l2 : List Str) :
    memB x (l1 ++ l2) = (memB x l1 || memB x l2) := by
  induction l1 with
  | nil => simp [memB]
  | cons c r ih => by_cases h : c = x <;> simp_all [memB]

theorem getV_delV (k k1 : Str) (m : VarMap) :
    getV k (delV k1 m) = if k1 = k then none else getV k m := by
  induction m with
  | nil => simp [delV, getV]
  | cons p r ih =>
    by_cases hk : k1 = k
    · subst hk
      by_cases h1 : p.1 = k1 <;> simp_all [delV, getV]
    · by_cases h1 : p.1 = k1 <;> by_cases h2 : p.1 = k <;>
        simp_all [delV, getV]

theorem getV_setV (k k1 v : Str) (m : VarMap) :
    getV k (setV k1 v m) = if k1 = k then some v else getV k m := by
  induction m with
  | nil => by_cases h : k1 = k <;> simp_all [setV, getV]
  | cons p r ih =>
    by_cases hk : k1 = k
    · subst hk
      by_cases h1 : p.1 = k1 <;> simp_all [setV, getV]
    · by_cases h1 : p.1 = k1 <;> by_cases h2 : p.1 = k <;>
        simp_all [setV, getV]

theorem truthyV_delV (k k1 : Str) (m : VarMap) :
    truthyV (delV k1 m) k = if k1 = k then false else truthyV m k := by
  by_cases h : k1 = k <;> simp [truthyV, getV_delV, h]

theorem truthyV_setV (k k1 v : Str) (m : VarMap) :
    truthyV (setV k1 v m) k = if k1 = k then !v.isEmpty else truthyV m k := by
  by_cases h : k1 = k <;> simp [truthyV, getV_setV, h]

theorem foldl_append_text (l : List Segment) (acc : Str) :
    l.foldl (fun a seg => a ++ seg.text) acc = acc ++ (l.map Segment.text).flatten := by
  induction l generalizing acc with
  | nil => simp
  | cons seg r ih => simp [ih, List.append_assoc]

/-! ### Lemmas about the reconciler cleanup -/

theorem cleanup_class_sub {cs : List Str} {vs : VarMap} {x : Str}
    (h : memB x (cleanupAttrs cs vs).1 = true) : memB x cs = true := by
  simp only [cleanupAttrs] at h
  split_ifs at h <;> dsimp only at h <;>
    first
      | exact h
      | exact memB_removeCls_le h
      | exact memB_removeCls_le (memB_removeCls_le h)
      | exact memB_removeCls_le (memB_removeCls_le (memB_removeCls_le h))
      | exact memB_removeCls_le (memB_removeCls_le (memB_removeCls_le (memB_removeCls_le h)))

theorem cleanup_vars_none {vs : VarMap} {k : Str} (cs : List Str)
    (h : getV k vs = none) : getV k (cleanupAttrs cs vs).2 = none := by
  simp only [cleanupAttrs]
  split_ifs <;> dsimp only <;> simp [getV_delV, h]

theorem cleanup_underline_excl {cs : List Str} {vs : VarMap}
    (h : memB (classMap .underline) (cleanupAttrs cs vs).1 = true) :
    memB (classMap .coloredUnderline) (cleanupAttrs cs vs).1 = false ∧
    getV ucKey (cleanupAttrs cs vs).2 = none ∧
    getV utKey (cleanupAttrs cs vs).2 = none := by
  have hu : memB (classMap .underline) cs = true := cleanup_class_sub h
  refine ⟨?_, ?_, ?_⟩ <;>
    (simp only [cleanupAttrs, hu, Bool.true_or, if_true]
     split_ifs <;> simp_all +decide [getV_delV, memB_removeCls, truthyV_delV])

theorem cleanup_marker_colored {cs : List Str} {vs : VarMap}
    (h : memB (classMap .color) (cleanupAttrs cs vs).1 = true) :
    truthyV (cleanupAttrs cs vs).2 tcKey = true := by
  simp only [cleanupAttrs] at *
  split_ifs at * <;> simp_all +decide [getV_delV, memB_removeCls, truthyV_delV]

theorem cleanup_marker_highlighted {cs : List Str} {vs : VarMap}
    (h : memB (classMap .highlight) (cleanupAttrs cs vs).1 = true) :
    truthyV (cleanupAttrs cs vs).2 hcKey = true := by
  simp only [cleanupAttrs] at *
  split_ifs at * <;> simp_all +decide [getV_delV, memB_removeCls, truthyV_delV]

theorem cleanup_marker_cu {cs : List Str} {vs : VarMap}
    (h : memB (classMap .coloredUnderline) (cleanupAttrs cs vs).1 = true) :
    truthyV (cleanupAttrs cs vs).2 ucKey = true := by
  simp only [cleanupAttrs] at *
  split_ifs at * <;> simp_all +decide [getV_delV, memB_removeCls, truthyV_delV]

theorem cleanup_marker_circled {cs : List Str} {vs : VarMap}
    (h : memB (classMap .circled) (cleanupAttrs cs vs).1 = true) :
    truthyV (cleanupAttrs cs vs).2 ccKey = true := by
  simp only [cleanupAttrs] at *
  split_ifs at * <;> simp_all +decide [getV_delV, memB_removeCls, truthyV_delV]

theorem cleanup_uc_marker {cs : List Str} {vs : VarMap}
    (h : truthyV (cleanupAttrs cs vs).2 ucKey = true) :
    memB (classMap .coloredUnderline) (cleanupAttrs cs vs).1 = true := by
  simp only [cleanupAttrs] at *
  split_ifs at * <;> simp_all +decide [getV_delV, memB_removeCls, truthyV_delV]

theorem branch_cu_apply (cs : List Str) (vs : VarMap) (value : Option Str) (cfg : Config)
    (hv : vTruthy value = true) :
    memB (classMap .underline) (branchAttrs cs vs .coloredUnderline value true cfg).1 = false := by
  simp +decide [branchAttrs, hv, memB_removeCls]

theorem branch_underline_apply (cs : List Str) (vs : VarMap) (value : Option Str) (cfg : Config) :
    memB (classMap .coloredUnderline) (branchAttrs cs vs .underline value true cfg).1 = false ∧
    getV ucKey (branchAttrs cs vs .underline value true cfg).2 = none ∧
    getV utKey (branchAttrs cs vs .underline value true cfg).2 = none := by
  simp +decide [branchAttrs, memB_removeCls, getV_delV]

theorem memB_false_of_sub {cs : List Str} {vs : VarMap} {x : Str}
    (h : memB x cs = false) : memB x (cleanupAttrs cs vs).1 = false := by
  cases hm : memB x (cleanupAttrs cs vs).1 with
  | false => rfl
  | true => rw [cleanup_class_sub hm] at h; exact absurd h (by simp)

def cfg0 : Config := ⟨3, 3⟩

/-- C3: after any toggle reconciliation, a run never carries both the
plain-underline class and the colored-underline state: whenever the
plain-underline class is in the reconciled class list, the
colored-underline class is absent and the underline-color and
underline-thickness declarations are gone; applying colored-underline with
a (truthy) value yields a run without the plain-underline class; applying
plain underline yields a run without the colored-underline class and
without its color and thickness declarations. -/
theorem c3_underline_mutex :
    (∀ cs vs st value sa cfg,
      memB (classMap .underline) (reconcileAttrs cs vs st value sa cfg).1 = true →
        memB (classMap .coloredUnderline) (reconcileAttrs cs vs st value sa cfg).1 = false ∧
        getV ucKey (reconcileAttrs cs vs st value sa cfg).2 = none ∧
        getV utKey (reconcileAttrs cs vs st value sa cfg).2 = none) ∧
    (∀ cs vs value cfg, vTruthy value = true →
      memB (classMap .underline) (reconcileAttrs cs vs .coloredUnderline value true cfg).1 = false) ∧
    (∀ cs vs value cfg,
      memB (classMap .coloredUnderline) (reconcileAttrs cs vs .underline value true cfg).1 = false ∧
      getV ucKey (reconcileAttrs cs vs .underline value true cfg).2 = none ∧
      getV utKey (reconcileAttrs cs vs .underline value true cfg).2 = none) := by
  refine ⟨?_, ?_, ?_⟩
  · intro cs vs st value sa cfg h
    exact cleanup_underline_excl h
  · intro cs vs value cfg hv
    exact memB_false_of_sub (branch_cu_apply cs vs value cfg hv)
  · intro cs vs value cfg
    obtain ⟨h1, h2, h3⟩ := branch_underline_apply cs vs value cfg
    exact ⟨memB_false_of_sub h1, cleanup_vars_none _ h2, cleanup_vars_none _ h3⟩

theorem c3_underline_mutex_witness :
    (memB (classMap .underline) (reconcileAttrs [classMap .underline] [] .bold none true cfg0).1 = true ∧
     memB (classMap .coloredUnderline) (reconcileAttrs [classMap .underline] [] .bold none true cfg0).1 = false ∧
     getV ucKey (reconcileAttrs [classMap .underline] [] .bold none true cfg0).2 = none ∧
     getV utKey (reconcileAttrs [classMap .underline] [] .bold none true cfg0).2 = none) ∧
    (vTruthy (some (str "#ff0000")) = true ∧
     memB (classMap .underline)
       (reconcileAttrs [classMap .underline] [] .coloredUnderline (some (str "#ff0000")) true cfg0).1 = false) ∧
    (memB (classMap .coloredUnderline)
       (reconcileAttrs [classMap .coloredUnderline] [(ucKey, str "#ff0000")] .underline none true cfg0).1 = false ∧
     getV ucKey (reconcileAttrs [classMap .coloredUnderline] [(ucKey, str "#ff0000")] .underline none true cfg0).2 = none ∧
     getV utKey (reconcileAttrs [classMap .coloredUnderline] [(ucKey, str "#ff0000")] .underline none true cfg0).2 = none) :=
  ⟨⟨by decide, c3_underline_mutex.1 [classMap .underline] [] .bold none true cfg0 (by decide)⟩,
   ⟨by decide, c3_underline_mutex.2.1 [classMap .underline] [] (some (str "#ff0000")) cfg0 (by decide)⟩,
   c3_underline_mutex.2.2 [classMap .coloredUnderline] [(ucKey, str "#ff0000")] none cfg0⟩

/-- C4 counterexample: toggling bold over a run that carries the text-color
declaration but no marker class emits a wrapper containing the
`--styler-text-color` declaration without the `styler-colored` marker
class, so a value declaration can appear without its marker. -/
theorem c4_marker_value_coupling_cex :
    toggleStyle (str "<span style=\"--styler-text-color: #ff0000;\">X</span>") .bold none cfg0 =
      .replaced (str "<span class=\"styler-bold\" style=\"--styler-text-color: #ff0000;\">X</span>") none ∧
    reconcileAttrs [] [(tcKey, str "#ff0000")] .bold none true cfg0 =
      ([classMap .bold], [(tcKey, str "#ff0000")]) ∧
    getV tcKey (reconcileAttrs [] [(tcKey, str "#ff0000")] .bold none true cfg0).2 = some (str "#ff0000") ∧
    memB (classMap .color) (reconcileAttrs [] [(tcKey, str "#ff0000")] .bold none true cfg0).1 = false := by
  refine ⟨by decide, by decide, by decide, by decide⟩

/-- C4 (amended): after reconciliation a marker class never survives
without a truthy backing value declaration, and a truthy underline-color
declaration never survives without its marker class; the converse for
text-color, highlight-color and circle-color fails (counterexample): those
declarations can survive without their marker. -/
theorem c4_marker_value_coupling :
    ∀ cs vs st value sa cfg,
      (memB (classMap .color) (reconcileAttrs cs vs st value sa cfg).1 = true →
        truthyV (reconcileAttrs cs vs st value sa cfg).2 tcKey = true) ∧
      (memB (classMap .highlight) (reconcileAttrs cs vs st value sa cfg).1 = true →
        truthyV (reconcileAttrs cs vs st value sa cfg).2 hcKey = true) ∧
      (memB (classMap .coloredUnderline) (reconcileAttrs cs vs st value sa cfg).1 = true →
        truthyV (reconcileAttrs cs vs st value sa cfg).2 ucKey = true) ∧
      (memB (classMap .circled) (reconcileAttrs cs vs st value sa cfg).1 = true →
        truthyV (reconcileAttrs cs vs st value sa cfg).2 ccKey = true) ∧
      (truthyV (reconcileAttrs cs vs st value sa cfg).2 ucKey = true →
        memB (classMap .coloredUnderline) (reconcileAttrs cs vs st value sa cfg).1 = true) := by
  intro cs vs st value sa cfg
  exact ⟨fun h => cleanup_marker_colored h, fun h => cleanup_marker_highlighted h,
    fun h => cleanup_marker_cu h, fun h => cleanup_marker_circled h,
    fun h => cleanup_uc_marker h⟩

theorem c4_marker_value_coupling_witness :
    (memB (classMap .color) (reconcileAttrs [classMap .color] [(tcKey, str "#ff0000")] .bold none true cfg0).1 = true ∧
     truthyV (reconcileAttrs [classMap .color] [(tcKey, str "#ff0000")] .bold none true cfg0).2 tcKey = true) ∧
    (memB (classMap .highlight) (reconcileAttrs [classMap .highlight] [(hcKey, str "#ffff00")] .bold none true cfg0).1 = true ∧
     truthyV (reconcileAttrs [classMap .highlight] [(hcKey, str "#ffff00")] .bold none true cfg0).2 hcKey = true) ∧
    (memB (classMap .coloredUnderline) (reconcileAttrs [classMap .coloredUnderline] [(ucKey, str "#ff0000")] .bold none true cfg0).1 = true ∧
     truthyV (reconcileAttrs [classMap .coloredUnderline] [(ucKey, str "#ff0000")] .bold none true cfg0).2 ucKey = true) ∧
    (memB (classMap .circled) (reconcileAttrs [classMap .circled] [(ccKey, str "#ff0000")] .bold none true cfg0).1 = true ∧
     truthyV (reconcileAttrs [classMap .circled] [(ccKey, str "#ff0000")] .bold none true cfg0).2 ccKey = true) ∧
    (truthyV (reconcileAttrs [classMap .coloredUnderline] [(ucKey, str "#ff0000")] .italic none true cfg0).2 ucKey = true ∧
     memB (classMap .coloredUnderline) (reconcileAttrs [classMap .coloredUnderline] [(ucKey, str "#ff0000")] .italic none true cfg0).1 = true) :=
  ⟨⟨by decide, (c4_marker_value_coupling [classMap .color] [(tcKey, str "#ff0000")] .bold none true cfg0).1 (by decide)⟩,
   ⟨by decide, (c4_marker_value_coupling [classMap .highlight] [(hcKey, str "#ffff00")] .bold none true cfg0).2.1 (by decide)⟩,
   ⟨by decide, (c4_marker_value_coupling [classMap .coloredUnderline] [(ucKey, str "#ff0000")] .bold none true cfg0).2.2.1 (by decide)⟩,
   ⟨by decide, (c4_marker_value_coupling [classMap .circled] [(ccKey, str "#ff0000")] .bold none true cfg0).2.2.2.1 (by decide)⟩,
   ⟨by decide, (c4_marker_value_coupling [classMap .coloredUnderline] [(ucKey, str "#ff0000")] .italic none true cfg0).2.2.2.2 (by decide)⟩⟩

/-! ### Pass-through lemmas (frame effect of the reconciler) -/

theorem branch_class_pass (cs : List Str) (vs : VarMap) (st : StyleType)
    (value : Option Str) (sa : Bool) (cfg : Config) (x : Str)
    (hx : ∀ t : StyleType, x ≠ classMap t) (h : memB x cs = true) :
    memB x (branchAttrs cs vs st value sa cfg).1 = true := by
  simp only [branchAttrs]
  split_ifs <;> dsimp only <;> simp_all [memB_removeCls, memB_append, hx]

theorem cleanup_class_pass (cs : List Str) (vs : VarMap) (x : Str)
    (hx : ∀ t : StyleType, x ≠ classMap t) (h : memB x cs = true) :
    memB x (cleanupAttrs cs vs).1 = true := by
  simp only [cleanupAttrs]
  split_ifs <;> dsimp only <;> simp_all [memB_removeCls, hx]

theorem branch_vars_pass (cs : List Str) (vs : VarMap) (st : StyleType)
    (value : Option Str) (sa : Bool) (cfg : Config) (k : Str)
    (h1 : tcKey ≠ k) (h2 : hcKey ≠ k) (h3 : ucKey ≠ k) (h4 : utKey ≠ k)
    (h5 : ccKey ≠ k) (h6 : ctKey ≠ k) :
    getV k (branchAttrs cs vs st value sa cfg).2 = getV k vs := by
  simp only [branchAttrs]
  split_ifs <;> dsimp only <;> simp_all [getV_delV, getV_setV]

theorem cleanup_vars_pass (cs : List Str) (vs : VarMap) (k : Str)
    (h3 : ucKey ≠ k) (h4 : utKey ≠ k) (h6 : ctKey ≠ k) :
    getV k (cleanupAttrs cs vs).2 = getV k vs := by
  simp only [cleanupAttrs]
  split_ifs <;> dsimp only <;> simp_all [getV_delV]

theorem foldl_styler_none (k : Str) (hk : (str "--styler-").isPrefixOf k = false) :
    ∀ (pieces : List Str) (m : VarMap), getV k m = none →
      getV k (pieces.foldl stylerVarStep m) = none := by
  intro pieces
  induction pieces with
  | nil => intro m h; simpa using h
  | cons p r ih =>
    intro m h
    refine ih _ ?_
    simp only [stylerVarStep]
    split_ifs with hp
    · rw [getV_setV]
      split_ifs with he
      · rw [he] at hp; rw [hp] at hk; exact absurd hk (by simp)
      · exact h
    · exact h

/-- C5 counterexample: the input wrapper carries the unrecognized
declaration `color: red`; toggling bold emits a wrapper with no style
attribute at all, so the declaration was dropped rather than preserved
verbatim. -/
theorem c5_unrecognized_passthrough_cex :
    toggleStyle (str "<span style=\"color: red;\">X</span>") .bold none cfg0 =
      .replaced (str "<span class=\"styler-bold\">X</span>") none ∧
    findCapture stylePat (str "<span class=\"styler-bold\">X</span>") = none := by
  refine ⟨by decide, by decide⟩

/-- C5 (amended): unrecognized classes are preserved by reconciliation, and
declarations with the `--styler-` prefix other than the six recognized keys
are preserved with their values; but a style declaration whose key does not
start with `--styler-` is never picked up from the input wrapper (the
re-parse drops it), so it is lost on re-serialization (counterexample). -/
theorem c5_unrecognized_passthrough :
    ∀ cs vs st value sa cfg,
      (∀ x, (∀ t : StyleType, x ≠ classMap t) → memB x cs = true →
        memB x (reconcileAttrs cs vs st value sa cfg).1 = true) ∧
      (∀ k, tcKey ≠ k → hcKey ≠ k → ucKey ≠ k → utKey ≠ k → ccKey ≠ k → ctKey ≠ k →
        getV k (reconcileAttrs cs vs st value sa cfg).2 = getV k vs) ∧
      (∀ sp k, (str "--styler-").isPrefixOf k = false →
        getV k (parseStylerVars sp) = none) := by
  intro cs vs st value sa cfg
  refine ⟨fun x hx h => ?_, fun k h1 h2 h3 h4 h5 h6 => ?_, fun sp k hk => ?_⟩
  · exact cleanup_class_pass _ _ _ hx (branch_class_pass cs vs st value sa cfg x hx h)
  · simp only [reconcileAttrs]
    rw [cleanup_vars_pass _ _ _ h3 h4 h6, branch_vars_pass _ _ _ _ _ _ _ h1 h2 h3 h4 h5 h6]
  · cases sp with
    | none => rfl
    | some info =>
      simp only [parseStylerVars]
      exact foldl_styler_none k hk _ _ rfl

theorem c5_unrecognized_passthrough_witness :
    ((∀ t : StyleType, str "custom-note" ≠ classMap t) ∧
     memB (str "custom-note") [str "custom-note"] = true ∧
     memB (str "custom-note")
       (reconcileAttrs [str "custom-note"] [] .bold none true cfg0).1 = true) ∧
    (tcKey ≠ str "font-weight" ∧
     getV (str "font-weight")
       (reconcileAttrs [] [(str "--styler-custom", str "x")] .bold none true cfg0).2 =
       getV (str "font-weight") [(str "--styler-custom", str "x")]) ∧
    ((str "--styler-").isPrefixOf (str "color") = false ∧
     getV (str "color")
       (parseStylerVars (some (mkSpanInfo (str "<span style=\"color: red;\">")))) = none) :=
  ⟨⟨by decide, by decide,
    (c5_unrecognized_passthrough [str "custom-note"] [] .bold none true cfg0).1
      (str "custom-note") (by decide) (by decide)⟩,
   ⟨by decide,
    (c5_unrecognized_passthrough [] [(str "--styler-custom", str "x")] .bold none true cfg0).2.1
      (str "font-weight") (by decide) (by decide) (by decide) (by decide) (by decide) (by decide)⟩,
   ⟨by decide,
    (c5_unrecognized_passthrough [] [] .bold none true cfg0).2.2
      (some (mkSpanInfo (str "<span style=\"color: red;\">"))) (str "color") (by decide)⟩⟩

/-! ### Claims C1 and C2: the activation decision -/

theorem segActive_bool (st : StyleType) (value : Option Str) (seg : Segment)
    (hst : st = .bold ∨ st = .italic ∨ st = .strike) :
    segActive st value seg =
      (match seg.span with
       | some info => memB (classMap st) info.classList
       | none => false) := by
  obtain ⟨tx, sp⟩ := seg
  cases sp <;> rcases hst with rfl | rfl | rfl <;> simp [segActive]

/-- C1 counterexample: for the selection `A<span class="styler-bold">B</span>`
(two runs, only one bold) the code decides shouldApply = false while the
claimed all-runs rule yields true, and the toggle removes bold from both
runs, producing `AB` instead of applying bold to both. -/
theorem c1_boolean_activation_cex :
    computeShouldApply (parseSelection (str "A<span class=\"styler-bold\">B</span>")) .bold none = false ∧
    specShouldApplyBoolean (parseSelection (str "A<span class=\"styler-bold\">B</span>")) .bold = true ∧
    toggleStyle (str "A<span class=\"styler-bold\">B</span>") .bold none cfg0 =
      .replaced (str "AB") none := by
  refine ⟨by decide, by decide, by decide⟩

/-- C1 (amended): for the boolean-only kinds (bold, italic, strikethrough)
the activation decision is existential, not universal:
shouldApply = NOT (the style class is present on SOME wrapped run of the
selection); hence in the partial-bold two-run example the toggle removes
the style everywhere rather than applying it. -/
theorem c1_boolean_activation :
    ∀ segs st value, (st = .bold ∨ st = .italic ∨ st = .strike) →
      computeShouldApply segs st value =
        !(segs.any fun seg =>
          match seg.span with
          | some info => memB (classMap st) info.classList
          | none => false) := by
  intro segs st value hst
  have hval : isValueKind st = false := by rcases hst with rfl | rfl | rfl <;> rfl
  simp only [computeShouldApply, hval, Bool.false_and, if_neg, Bool.false_eq_true,
    not_false_eq_true, isStyleActiveInSegments]
  congr 1
  congr 1
  funext seg
  exact segActive_bool st value seg hst

theorem c1_boolean_activation_witness :
    ((.bold : StyleType) = .bold ∨ (.bold : StyleType) = .italic ∨ (.bold : StyleType) = .strike) ∧
    computeShouldApply (parseSelection (str "plain")) .bold none = true :=
  ⟨Or.inl rfl, by
    rw [c1_boolean_activation (parseSelection (str "plain")) .bold none (Or.inl rfl)]
    decide⟩

/-- A run whose value slot equals the requested value case-insensitively
(what makes the loop set isSameValueActive). -/
def sameSeg (st : StyleType) (v : Str) (seg : Segment) : Bool :=
  match getCssVariableValue seg.span (varToCheck st) with
  | some cv => decide (lowerStr cv = lowerStr v)
  | none => false

/-- A run that makes the loop set hasDifferentValue: slot present with a
different value, or slot absent while the marker class is present. -/
def diffSeg (st : StyleType) (v : Str) (seg : Segment) : Bool :=
  match getCssVariableValue seg.span (varToCheck st) with
  | some cv => !decide (lowerStr cv = lowerStr v)
  | none =>
    match seg.span with
    | some info => memB (classMap st) info.classList
    | none => false

theorem valueFold (st : StyleType) (v : Str) :
    ∀ (segs : List Segment) (a b : Bool),
      segs.foldl
        (fun (acc : Bool × Bool) seg =>
          match getCssVariableValue seg.span (varToCheck st) with
          | some cv =>
            if lowerStr cv = lowerStr v then (true, acc.2) else (acc.1, true)
          | none =>
            match seg.span with
            | some info => if memB (classMap st) info.classList then (acc.1, true) else acc
            | none => acc)
        (a, b) =
      (a || segs.any (sameSeg st v), b || segs.any (diffSeg st v)) := by
  intro segs
  induction segs with
  | nil => intro a b; simp
  | cons seg r ih =>
    intro a b
    obtain ⟨tx, sp⟩ := seg
    simp only [List.foldl_cons, List.any_cons]
    cases hgv : getCssVariableValue sp (varToCheck st) with
    | some cv =>
      by_cases he : lowerStr cv = lowerStr v
      · simp [hgv, he, ih, sameSeg, diffSeg, Bool.or_assoc]
      · simp [hgv, he, ih, sameSeg, diffSeg, Bool.or_assoc]
    | none =>
      cases sp with
      | none => simp [hgv, ih, sameSeg, diffSeg, Bool.or_assoc]
      | some info =>
        by_cases hm : memB (classMap st) info.classList = true
        · simp [hgv, ih, hm, sameSeg, diffSeg, Bool.or_assoc]
        · simp [hgv, ih, hm, sameSeg, diffSeg, Bool.or_assoc]

/-- C2 counterexample: for `A<span style="--styler-text-color: #ff0000;">B</span>`
and requested text-color `#ff0000`, the slot is absent on the text-bearing
run `A`, so the claim requires shouldApply = true; the code computes
shouldApply = false and removes the style, producing `AB`. -/
theorem c2_value_activation_cex :
    computeShouldApply
      (parseSelection (str "A<span style=\"--styler-text-color: #ff0000;\">B</span>"))
      .color (some (str "#ff0000")) = false ∧
    specShouldApplyValued
      (parseSelection (str "A<span style=\"--styler-text-color: #ff0000;\">B</span>"))
      .color (str "#ff0000") = true ∧
    toggleStyle (str "A<span style=\"--styler-text-color: #ff0000;\">B</span>")
      .color (some (str "#ff0000")) cfg0 = .replaced (str "AB") none := by
  refine ⟨by decide, by decide, by decide⟩

/-- C2 (amended): for a value-bearing kind with a truthy value the decision
is shouldApply = false iff SOME run's slot equals the requested value
case-insensitively AND no run has the slot with a different value AND no
slot-less run carries the marker class; runs with neither slot nor marker
(in particular unwrapped runs) are ignored rather than forcing apply. -/
theorem c2_value_activation :
    ∀ segs st v, isValueKind st = true → v ≠ [] →
      computeShouldApply segs st (some v) =
        !((segs.any (sameSeg st v)) && !(segs.any (diffSeg st v))) := by
  intro segs st v hk hv
  have hvt : vTruthy (some v) = true := by simp [vTruthy, hv]
  simp only [computeShouldApply, hk, hvt, Bool.and_self, if_pos, Option.getD_some]
  rw [valueFold st v segs false false]
  simp

theorem c2_value_activation_witness :
    isValueKind .color = true ∧ str "#ff0000" ≠ [] ∧
    computeShouldApply (parseSelection (str "X")) .color (some (str "#ff0000")) =
      !((parseSelection (str "X")).any (sameSeg .color (str "#ff0000")) &&
        !((parseSelection (str "X")).any (diffSeg .color (str "#ff0000")))) :=
  ⟨by decide, by decide,
    c2_value_activation (parseSelection (str "X")) .color (str "#ff0000") (by decide) (by decide)⟩

/-- C7: on the single-run selection
`<span style="--styler-text-color: #ff0000;">X</span>`, requesting
text-color `#ff0000` removes the wrapper entirely (result `X`), while
requesting `#00ff00` keeps a wrapper around `X` whose text-color
declaration value is `#00ff00`. -/
theorem c7_value_replace_vs_remove :
    toggleStyle (str "<span style=\"--styler-text-color: #ff0000;\">X</span>")
      .color (some (str "#ff0000")) cfg0 = .replaced (str "X") none ∧
    toggleStyle (str "<span style=\"--styler-text-color: #ff0000;\">X</span>")
      .color (some (str "#00ff00")) cfg0 =
      .replaced (str "<span class=\"styler-colored\" style=\"--styler-text-color: #00ff00;\">X</span>") none := by
  refine ⟨by decide, by decide⟩

/-- C9 counterexample: removeAllStyling is not idempotent: stripping the
tags of `x<sp<span>an>y` reassembles the tag `<span>` out of the remaining
text, so a second application strips further. -/
theorem c9_remove_all_idempotent_cex :
    removeAllStyling (str "x<sp<span>an>y") = str "x<span>y" ∧
    removeAllStyling (str "x<span>y") = str "xy" ∧
    removeAllStyling (removeAllStyling (str "x<sp<span>an>y")) ≠
      removeAllStyling (str "x<sp<span>an>y") := by
  refine ⟨by decide, by decide, by decide⟩

theorem removeAll_fixed (t : Str) (ht : findFirstTag t = none) :
    removeAllStyling t = t := by
  by_cases hte : t = []
  · subst hte; rfl
  · simp [removeAllStyling, parseSelection, parseLoop, ht, hte]

/-- C9 (amended): removeAllStyling emits exactly the concatenation of every
parsed run's bare text; applying it twice equals applying it once whenever
the first result contains no tag match, but not for every selection string
(counterexample: the stripped pieces can reassemble into a new tag). -/
theorem c9_remove_all :
    (∀ s, removeAllStyling s = ((parseSelection s).map Segment.text).flatten) ∧
    (∀ s, findFirstTag (removeAllStyling s) = none →
      removeAllStyling (removeAllStyling s) = removeAllStyling s) := by
  constructor
  · intro s
    simp [removeAllStyling, foldl_append_text]
  · intro s h
    exact removeAll_fixed _ h

theorem c9_remove_all_witness :
    findFirstTag (removeAllStyling (str "a<span class=\"styler-bold\">b</span>c")) = none ∧
    removeAllStyling (removeAllStyling (str "a<span class=\"styler-bold\">b</span>c")) =
      removeAllStyling (str "a<span class=\"styler-bold\">b</span>c") :=
  ⟨by decide, c9_remove_all.2 (str "a<span class=\"styler-bold\">b</span>c") (by decide)⟩

/-! ### Claim C6: zero-length selections -/

theorem trimWs_sandwich (a b : Char) (mid : Str) (ha : isWs a = false) (hb : isWs b = false) :
    trimWs (a :: (mid ++ [b])) = a :: (mid ++ [b]) := by
  simp [trimWs, ha, hb, List.dropWhile_cons, List.reverse_append]

theorem reconcile_fresh (st : StyleType) (hst : st = StyleType.color ∨ st = StyleType.highlight)
    (v : Str) (hv : v.isEmpty = false) (cfg : Config) :
    reconcileAttrs [] [] st (some v) true cfg = ([classMap st], [(varToCheck st, v)]) := by
  rcases hst with rfl | rfl <;>
    simp +decide [reconcileAttrs, branchAttrs, cleanupAttrs, vTruthy, hv, memB, setV, getV,
      delV, truthyV, removeCls]

theorem createStyledSpan_fresh (st : StyleType)
    (hst : st = StyleType.color ∨ st = StyleType.highlight)
    (v : Str) (hv : v.isEmpty = false) (cfg : Config) :
    createStyledSpan [] st (some v) cfg =
      (str "<span class=\"" ++ classMap st ++ str "\" style=\"" ++ varToCheck st ++ str ": ") ++
        v ++ str ";\"></span>" := by
  rcases hst with rfl | rfl
  · simp only [createStyledSpan, applyModificationToSegment, parseStylerVars]
    rw [reconcile_fresh StyleType.color (Or.inl rfl) v hv cfg]
    simp only [serializeSpan, List.map, varToCheck]
    have e0 : List.intercalate (str " ") [tcKey ++ str ": " ++ v ++ str ";"] =
        tcKey ++ str ": " ++ v ++ str ";" := by
      simp [List.intercalate]
    rw [e0]
    have eshape : tcKey ++ str ": " ++ v ++ str ";" =
        '-' :: ((str "-styler-text-color: " ++ v) ++ [';']) := rfl
    rw [eshape, trimWs_sandwich '-' ';' _ (by decide) (by decide)]
    have f1 : List.filter (fun c => !List.isEmpty c) (dedupKeep [classMap StyleType.color]) =
        [classMap StyleType.color] := rfl
    rw [f1]
    simp only [List.isEmpty_cons, List.isEmpty_nil, Bool.not_false, Bool.true_or, Bool.or_true,
      if_true, ite_true]
    simp only [List.append_assoc, List.cons_append]
    rfl
  · simp only [createStyledSpan, applyModificationToSegment, parseStylerVars]
    rw [reconcile_fresh StyleType.highlight (Or.inr rfl) v hv cfg]
    simp only [serializeSpan, List.map, varToCheck]
    have e0 : List.intercalate (str " ") [hcKey ++ str ": " ++ v ++ str ";"] =
        hcKey ++ str ": " ++ v ++ str ";" := by
      simp [List.intercalate]
    rw [e0]
    have eshape : hcKey ++ str ": " ++ v ++ str ";" =
        '-' :: ((str "-styler-highlight-color: " ++ v) ++ [';']) := rfl
    rw [eshape, trimWs_sandwich '-' ';' _ (by decide) (by decide)]
    have f1 : List.filter (fun c => !List.isEmpty c) (dedupKeep [classMap StyleType.highlight]) =
        [classMap StyleType.highlight] := rfl
    rw [f1]
    simp only [List.isEmpty_cons, List.isEmpty_nil, Bool.not_false, Bool.true_or, Bool.or_true,
      if_true, ite_true]
    simp only [List.append_assoc, List.cons_append]
    rfl

theorem firstIdx_app (ch : Char) : ∀ (l1 l2 : Str),
    ∃ i, firstIdx ch (l1 ++ ch :: l2) = some i ∧ i ≤ l1.length := by
  intro l1
  induction l1 with
  | nil => intro l2; exact ⟨0, by simp [firstIdx], Nat.zero_le _⟩
  | cons c r ih =>
    intro l2
    by_cases hc : c = ch
    · exact ⟨0, by simp [firstIdx, hc], Nat.zero_le _⟩
    · obtain ⟨i, hi, hle⟩ := ih l2
      refine ⟨i + 1, by simp [firstIdx, hc, hi], ?_⟩
      simpa using Nat.succ_le_succ hle

/-- C6 counterexample: the empty string is a non-null value, yet a
zero-length text-color request with it is neither accepted with a styled
wrapper and a cursor, nor rejected with the selection-required signal: it
falls through and replaces the empty range with the empty string. -/
theorem c6_zero_length_cex :
    toggleStyle [] .color (some []) cfg0 = .replaced [] none := by decide

/-- C6 (amended): a zero-length request with kind text-color or
highlight-color and a non-empty (truthy) value is accepted, emitting a
single empty-text wrapper carrying exactly that style's marker class and
value declaration, and a cursor offset strictly inside the emitted wrapper
(just past the opening tag's closing bracket); with the empty-string value
the request instead falls through with no wrapper (counterexample).  A
zero-length request with any other kind is rejected with the
selection-required signal and mutates nothing. -/
theorem c6_zero_length :
    (∀ st v cfg, (st = StyleType.color ∨ st = StyleType.highlight) → v ≠ [] →
      ∃ c, toggleStyle [] st (some v) cfg =
          .replaced ((str "<span class=\"" ++ classMap st ++ str "\" style=\"" ++
            varToCheck st ++ str ": ") ++ v ++ str ";\"></span>") (some c) ∧
        0 < c ∧
        c < ((str "<span class=\"" ++ classMap st ++ str "\" style=\"" ++
            varToCheck st ++ str ": ") ++ v ++ str ";\"></span>").length) ∧
    (∀ st value cfg, ¬(st = StyleType.color) → ¬(st = StyleType.highlight) →
      toggleStyle [] st value cfg = .selectionRequired) := by
  constructor
  · intro st v cfg hst hv
    have hve : v.isEmpty = false := by
      cases v with
      | nil => exact absurd rfl hv
      | cons a b => rfl
    have hcs := createStyledSpan_fresh st hst v hve cfg
    rcases hst with rfl | rfl
    · simp only [toggleStyle, List.isEmpty_nil, vTruthy, hve, Bool.not_false, Bool.true_and,
        Bool.and_true, if_true, ite_true, reduceCtorEq, decide_True, Bool.or_true, Bool.true_or]
      rw [hcs]
      have esp : (str "<span class=\"" ++ classMap StyleType.color ++ str "\" style=\"" ++
            varToCheck StyleType.color ++ str ": ") ++ v ++ str ";\"></span>" =
          ((str "<span class=\"" ++ classMap StyleType.color ++ str "\" style=\"" ++
            varToCheck StyleType.color ++ str ": ") ++ v ++ [';', '"']) ++ '>' :: str "</span>" := by
        simp only [List.append_assoc, List.cons_append]
        rfl
      rw [esp]
      obtain ⟨i, hi, hle⟩ := firstIdx_app '>'
        ((str "<span class=\"" ++ classMap StyleType.color ++ str "\" style=\"" ++
          varToCheck StyleType.color ++ str ": ") ++ v ++ [';', '"']) (str "</span>")
      rw [hi]
      refine ⟨i + 1, rfl, Nat.succ_pos i, ?_⟩
      have h10 : (str "</span>").length = 7 := rfl
      simp only [List.length_append, List.length_cons, h10] at hle ⊢
      simp at hle
      omega
    · simp only [toggleStyle, List.isEmpty_nil, vTruthy, hve, Bool.not_false, Bool.true_and,
        Bool.and_true, if_true, ite_true, reduceCtorEq, decide_True, Bool.or_true, Bool.true_or]
      rw [hcs]
      have esp : (str "<span class=\"" ++ classMap StyleType.highlight ++ str "\" style=\"" ++
            varToCheck StyleType.highlight ++ str ": ") ++ v ++ str ";\"></span>" =
          ((str "<span class=\"" ++ classMap StyleType.highlight ++ str "\" style=\"" ++
            varToCheck StyleType.highlight ++ str ": ") ++ v ++ [';', '"']) ++ '>' :: str "</span>" := by
        simp only [List.append_assoc, List.cons_append]
        rfl
      rw [esp]
      obtain ⟨i, hi, hle⟩ := firstIdx_app '>'
        ((str "<span class=\"" ++ classMap StyleType.highlight ++ str "\" style=\"" ++
          varToCheck StyleType.highlight ++ str ": ") ++ v ++ [';', '"']) (str "</span>")
      rw [hi]
      refine ⟨i + 1, rfl, Nat.succ_pos i, ?_⟩
      have h10 : (str "</span>").length = 7 := rfl
      simp only [List.length_append, List.length_cons, h10] at hle ⊢
      simp at hle
      omega
  · intro st value cfg h1 h2
    simp [toggleStyle, h1, h2]

theorem c6_zero_length_witness :
    (((StyleType.color = StyleType.color ∨ StyleType.color = StyleType.highlight) ∧
      str "#ff0000" ≠ []) ∧
     (∃ c, toggleStyle [] .color (some (str "#ff0000")) cfg0 =
          .replaced ((str "<span class=\"" ++ classMap .color ++ str "\" style=\"" ++
            varToCheck .color ++ str ": ") ++ str "#ff0000" ++ str ";\"></span>") (some c) ∧
        0 < c ∧
        c < ((str "<span class=\"" ++ classMap .color ++ str "\" style=\"" ++
            varToCheck .color ++ str ": ") ++ str "#ff0000" ++ str ";\"></span>").length)) ∧
    ((¬(StyleType.bold = StyleType.color) ∧ ¬(StyleType.bold = StyleType.highlight)) ∧
     toggleStyle [] .bold none cfg0 = .selectionRequired) :=
  ⟨⟨⟨Or.inl rfl, by decide⟩,
    c6_zero_length.1 .color (str "#ff0000") cfg0 (Or.inl rfl) (by decide)⟩,
   ⟨⟨by decide, by decide⟩,
    c6_zero_length.2 .bold none cfg0 (by decide) (by decide)⟩⟩

/-! ### Segmenter lemmas -/

theorem takeUntil_split (stop : Char) : ∀ (s m r : Str),
    takeUntil stop s = some (m, r) → m ++ stop :: r = s := by
  intro s
  induction s with
  | nil => intro m r h; simp [takeUntil] at h
  | cons c rest ih =>
    intro m r h
    by_cases hc : c = stop
    · rw [takeUntil, if_pos hc] at h
      simp only [Option.some.injEq, Prod.mk.injEq] at h
      obtain ⟨hm, hr⟩ := h
      subst hc
      simp_all
    · rw [takeUntil, if_neg hc] at h
      cases ht : takeUntil stop rest with
      | none => rw [ht] at h; simp at h
      | some p =>
        obtain ⟨m1, r1⟩ := p
        rw [ht] at h
        simp only [Option.some.injEq, Prod.mk.injEq] at h
        obtain ⟨hm, hr⟩ := h
        subst hm; subst hr
        simpa using ih m1 r1 ht

theorem spanCore_len (sl : Str) : ∀ (s t r : Str), spanCore sl s = some (t, r) →
    t.length + r.length = s.length + sl.length + 1 ∧ 0 < t.length := by
  intro s t r h
  match s, h with
  | a :: b :: d :: e :: r3, h =>
    rw [spanCore] at h
    split_ifs at h with hx
    · cases ht : takeUntil '>' r3 with
      | none => rw [ht] at h; simp at h
      | some p =>
        obtain ⟨mid, r4⟩ := p
        rw [ht] at h
        simp only [Option.some.injEq, Prod.mk.injEq] at h
        obtain ⟨hm, hr⟩ := h
        have hsp := takeUntil_split '>' r3 mid r4 ht
        have hlen : mid.length + 1 + r4.length = r3.length := by
          rw [← hsp]; simp; omega
        subst hm; subst hr
        constructor
        · simp [List.length_append]
          omega
        · simp

theorem matchTagAt_len : ∀ (s t r : Str), matchTagAt s = some (t, r) →
    t.length + r.length = s.length ∧ 0 < t.length := by
  intro s t r h
  match s, h with
  | c :: r1, h =>
    simp only [matchTagAt] at h
    split_ifs at h with hc
    · match r1, h with
      | [], h =>
        have := spanCore_len [] [] t r h
        simpa using this
      | c2 :: r2, h =>
        dsimp only at h
        by_cases h2 : c2 = '/'
        · rw [if_pos h2] at h
          have := spanCore_len [c2] r2 t r h
          simp at this ⊢
          omega
        · rw [if_neg h2] at h
          have := spanCore_len [] (c2 :: r2) t r h
          simp at this ⊢
          omega

theorem findFirstTag_len : ∀ (s p t r : Str), findFirstTag s = some (p, t, r) →
    p.length + t.length + r.length = s.length ∧ 0 < t.length := by
  intro s
  induction s with
  | nil => intro p t r h; simp [findFirstTag] at h
  | cons c rest ih =>
    intro p t r h
    rw [findFirstTag] at h
    cases hm : matchTagAt (c :: rest) with
    | some q =>
      obtain ⟨t1, r1⟩ := q
      rw [hm] at h
      simp only [Option.some.injEq, Prod.mk.injEq] at h
      obtain ⟨hp, ht, hr⟩ := h
      subst hp; subst ht; subst hr
      have := matchTagAt_len _ _ _ hm
      simpa using this
    | none =>
      rw [hm] at h
      cases hf : findFirstTag rest with
      | none => rw [hf] at h; simp at h
      | some q =>
        obtain ⟨p1, t1, r1⟩ := q
        rw [hf] at h
        simp only [Option.map_some', Option.some.injEq, Prod.mk.injEq] at h
        obtain ⟨hp, ht, hr⟩ := h
        subst hp; subst ht; subst hr
        have := ih p1 t1 r1 hf
        simp at this ⊢
        omega

theorem parseLoop_fuel : ∀ (f g : Nat) (s : Str) (ctx : Option SpanInfo),
    s.length < f → s.length < g → parseLoop f s ctx = parseLoop g s ctx := by
  intro f
  induction f with
  | zero => intro g s ctx hf; exact absurd hf (by omega)
  | succ f ih =>
    intro g s ctx hf hg
    cases g with
    | zero => exact absurd hg (by omega)
    | succ g =>
      rw [parseLoop, parseLoop]
      cases hft : findFirstTag s with
      | none => rfl
      | some q =>
        obtain ⟨p, t, r⟩ := q
        have hlen := findFirstTag_len s p t r hft
        show ((if p.isEmpty then [] else [⟨p, ctx⟩]) ++
            parseLoop f r (if isCloseTag t then none else some (mkSpanInfo t))) =
          ((if p.isEmpty then [] else [⟨p, ctx⟩]) ++
            parseLoop g r (if isCloseTag t then none else some (mkSpanInfo t)))
        congr 1
        exact ih g r _ (by omega) (by omega)

theorem parseLoop_noTag (f : Nat) (s : Str) (ctx : Option SpanInfo)
    (h : findFirstTag s = none) (hf : 0 < f) :
    parseLoop f s ctx = if s.isEmpty then [] else [⟨s, ctx⟩] := by
  cases f with
  | zero => exact absurd hf (by omega)
  | succ f => rw [parseLoop, h]

theorem parseLoop_withTag (f : Nat) (s : Str) (ctx : Option SpanInfo) (p t r : Str)
    (h : findFirstTag s = some (p, t, r)) (hf : s.length < f) :
    parseLoop f s ctx =
      (if p.isEmpty then [] else [⟨p, ctx⟩]) ++
        parseLoop (r.length + 1) r (if isCloseTag t then none else some (mkSpanInfo t)) := by
  cases f with
  | zero => exact absurd hf (by omega)
  | succ f =>
    rw [parseLoop, h]
    have hlen := findFirstTag_len s p t r h
    show ((if p.isEmpty then [] else [⟨p, ctx⟩]) ++
        parseLoop f r (if isCloseTag t then none else some (mkSpanInfo t))) = _
    congr 1
    exact parseLoop_fuel f (r.length + 1) r _ (by omega) (by omega)

theorem matchTagAt_not_lt {c : Char} (r : Str) (hc : ¬c = '<') :
    matchTagAt (c :: r) = none := by
  simp [matchTagAt, hc]

theorem findFirstTag_no_lt : ∀ (s : Str), '<' ∉ s → findFirstTag s = none := by
  intro s
  induction s with
  | nil => intro h; rfl
  | cons c r ih =>
    intro h
    have hc : ¬c = '<' := by
      intro hh
      exact h (by simp [hh])
    rw [findFirstTag, matchTagAt_not_lt r hc,
      ih (fun hm => h (List.mem_cons_of_mem _ hm))]
    rfl

theorem findFirstTag_close : ∀ (s : Str), '<' ∉ s →
    findFirstTag (s ++ str "</span>") = some (s, str "</span>", []) := by
  intro s
  induction s with
  | nil => intro h; decide
  | cons c r ih =>
    intro h
    have hc : ¬c = '<' := by
      intro hh
      exact h (by simp [hh])
    rw [List.cons_append, findFirstTag, matchTagAt_not_lt _ hc,
      ih (fun hm => h (List.mem_cons_of_mem _ hm))]
    rfl

/-! ### Claim C8: toggle symmetry on plain text -/

/-- The wrapper the engine emits around a previously-unstyled run. -/
def wrapTag (st : StyleType) : Str := str "<span class=\"" ++ classMap st ++ str "\">"

theorem findFirstTag_wrap (st : StyleType) (x : Str)
    (hst : st = StyleType.bold ∨ st = StyleType.italic ∨ st = StyleType.underline ∨
      st = StyleType.strike) :
    findFirstTag (wrapTag st ++ x) = some ([], wrapTag st, x) := by
  rcases hst with rfl | rfl | rfl | rfl <;> rfl

theorem isCloseTag_wrap (st : StyleType)
    (hst : st = StyleType.bold ∨ st = StyleType.italic ∨ st = StyleType.underline ∨
      st = StyleType.strike) :
    isCloseTag (wrapTag st) = false := by
  rcases hst with rfl | rfl | rfl | rfl <;> rfl

theorem parseSelection_plain (s : Str) (h : '<' ∉ s) (hne : s ≠ []) :
    parseSelection s = [⟨s, none⟩] := by
  have hse : s.isEmpty = false := by
    cases s with
    | nil => exact absurd rfl hne
    | cons a b => rfl
  simp only [parseSelection]
  rw [parseLoop_noTag _ _ _ (findFirstTag_no_lt s h) (by omega)]
  simp [hse]

theorem parse_wrapped (st : StyleType)
    (hst : st = StyleType.bold ∨ st = StyleType.italic ∨ st = StyleType.underline ∨
      st = StyleType.strike)
    (s : Str) (h : '<' ∉ s) (hne : s ≠ []) :
    parseSelection (wrapTag st ++ s ++ str "</span>") =
      [⟨s, some (mkSpanInfo (wrapTag st))⟩] := by
  have hse : s.isEmpty = false := by
    cases s with
    | nil => exact absurd rfl hne
    | cons a b => rfl
  simp only [List.append_assoc, parseSelection]
  rw [parseLoop_withTag _ _ _ _ _ _ (findFirstTag_wrap st (s ++ str "</span>") hst)
    (by omega)]
  rw [isCloseTag_wrap st hst]
  rw [parseLoop_withTag _ _ _ _ _ _ (findFirstTag_close s h) (by omega)]
  rw [parseLoop_noTag _ _ _ (by rfl) (by omega)]
  simp [hse]

theorem toggleStyle_nonempty (s : Str) (hse : s.isEmpty = false) (st : StyleType)
    (value : Option Str) (cfg : Config) :
    toggleStyle s st value cfg =
      .replaced ((parseSelection s).foldl
        (fun acc seg => acc ++ applyModificationToSegment seg.text seg.span st value
          (computeShouldApply (parseSelection s) st value) cfg) []) none := by
  simp [toggleStyle, hse]

theorem reconcile_boolApply (st : StyleType)
    (hst : st = StyleType.bold ∨ st = StyleType.italic ∨ st = StyleType.underline ∨
      st = StyleType.strike) (cfg : Config) :
    reconcileAttrs [] [] st none true cfg = ([classMap st], []) := by
  rcases hst with rfl | rfl | rfl | rfl <;>
    simp +decide [reconcileAttrs, branchAttrs, cleanupAttrs, memB, removeCls, delV, getV,
      truthyV, vTruthy]

theorem reconcile_boolRemove (st : StyleType)
    (hst : st = StyleType.bold ∨ st = StyleType.italic ∨ st = StyleType.underline ∨
      st = StyleType.strike) (cfg : Config) :
    reconcileAttrs [classMap st] [] st none false cfg = ([], []) := by
  rcases hst with rfl | rfl | rfl | rfl <;>
    simp +decide [reconcileAttrs, branchAttrs, cleanupAttrs, memB, removeCls, delV, getV,
      truthyV, vTruthy]

theorem serializeSpan_one_class (c : Str) (hc : c.isEmpty = false) (text : Str) :
    serializeSpan [c] [] text =
      str "<span class=\"" ++ c ++ str "\">" ++ text ++ str "</span>" := by
  simp only [serializeSpan, List.map_nil]
  rw [show List.intercalate (str " ") ([] : List Str) = [] from rfl]
  rw [show trimWs [] = [] from rfl]
  rw [show dedupKeep [c] = [c] from rfl]
  simp only [List.filter_cons, List.filter_nil, hc, Bool.not_false, if_true, ite_true,
    List.isEmpty_cons, List.isEmpty_nil, Bool.not_true, Bool.or_false, Bool.true_or,
    Bool.or_true]
  rw [show List.intercalate (str " ") [c] = c ++ [] from rfl]
  simp only [List.append_nil, List.append_assoc]
  rfl

theorem serializeSpan_empty (text : Str) : serializeSpan [] [] text = text := rfl

theorem segActive_text (st : StyleType) (value : Option Str) (tx : Str) (sp : Option SpanInfo) :
    segActive st value ⟨tx, sp⟩ = segActive st value ⟨[], sp⟩ := rfl

theorem valueCheck_none (st : StyleType) : (isValueKind st && vTruthy none) = false := by
  simp [vTruthy]

theorem cSA_plain (st : StyleType)
    (hst : st = StyleType.bold ∨ st = StyleType.italic ∨ st = StyleType.underline ∨
      st = StyleType.strike) (s : Str) :
    computeShouldApply [⟨s, none⟩] st none = true := by
  simp only [computeShouldApply, valueCheck_none, Bool.false_eq_true, if_false,
    isStyleActiveInSegments, List.any_cons, List.any_nil, segActive_text]
  rcases hst with rfl | rfl | rfl | rfl <;> decide

theorem cSA_wrapped (st : StyleType)
    (hst : st = StyleType.bold ∨ st = StyleType.italic ∨ st = StyleType.underline ∨
      st = StyleType.strike) (s : Str) :
    computeShouldApply [⟨s, some (mkSpanInfo (wrapTag st))⟩] st none = false := by
  simp only [computeShouldApply, valueCheck_none, Bool.false_eq_true, if_false,
    isStyleActiveInSegments, List.any_cons, List.any_nil, segActive_text]
  rcases hst with rfl | rfl | rfl | rfl <;> decide

/-- C8: toggling a boolean kind (bold, italic, underline, strikethrough)
on a non-empty plain-text selection (no markup characters) wraps it in the
style's span, and toggling the result again returns exactly the original
text. -/
theorem c8_toggle_symmetry :
    ∀ s st cfg, s ≠ [] → '<' ∉ s →
      (st = StyleType.bold ∨ st = StyleType.italic ∨ st = StyleType.underline ∨
        st = StyleType.strike) →
      toggleStyle s st none cfg = .replaced (wrapTag st ++ s ++ str "</span>") none ∧
      toggleStyle (wrapTag st ++ s ++ str "</span>") st none cfg = .replaced s none := by
  intro s st cfg hne h hst
  have hse : s.isEmpty = false := by
    cases s with
    | nil => exact absurd rfl hne
    | cons a b => rfl
  have hcls : (classMap st).isEmpty = false := by
    rcases hst with rfl | rfl | rfl | rfl <;> decide
  have hse2 : (wrapTag st ++ s ++ str "</span>").isEmpty = false := by
    rcases hst with rfl | rfl | rfl | rfl <;> rfl
  constructor
  · rw [toggleStyle_nonempty s hse st none cfg, parseSelection_plain s h hne]
    simp only [List.foldl_cons, List.foldl_nil, List.nil_append]
    rw [cSA_plain st hst s]
    simp only [applyModificationToSegment, parseStylerVars]
    rw [reconcile_boolApply st hst cfg]
    rw [serializeSpan_one_class (classMap st) hcls s]
    rw [wrapTag]
  · rw [toggleStyle_nonempty _ hse2 st none cfg, parse_wrapped st hst s h hne]
    simp only [List.foldl_cons, List.foldl_nil, List.nil_append]
    rw [cSA_wrapped st hst s]
    simp only [applyModificationToSegment, mkSpanInfo]
    have hec : extractClasses (wrapTag st) = [classMap st] := by
      rcases hst with rfl | rfl | rfl | rfl <;> decide
    have hpv : parseStylerVars (some ⟨wrapTag st, extractClasses (wrapTag st),
        extractStyles (wrapTag st)⟩) = [] := by
      rcases hst with rfl | rfl | rfl | rfl <;> decide
    rw [hpv, hec, reconcile_boolRemove st hst cfg]
    rw [serializeSpan_empty s]

theorem c8_toggle_symmetry_witness :
    (str "Hi" ≠ [] ∧ '<' ∉ str "Hi") ∧
    toggleStyle (str "Hi") .bold none cfg0 =
      .replaced (wrapTag .bold ++ str "Hi" ++ str "</span>") none ∧
    toggleStyle (wrapTag .bold ++ str "Hi" ++ str "</span>") .bold none cfg0 =
      .replaced (str "Hi") none :=
  ⟨⟨by decide, by decide⟩,
   c8_toggle_symmetry (str "Hi") .bold cfg0 (by decide) (by decide) (Or.inl rfl)⟩

/-! ### Claim C10: the two removeAllStyling variants -/

/-- A segmenter tag that the regex variant also matches: any opening tag,
or a close tag that is exactly `</span>` case-insensitively. -/
def tagOk (tag : Str) : Bool :=
  match tag with
  | _ :: c :: _ => if c = '/' then decide (lowerStr tag = str "</span>") else true
  | _ => true

theorem spanCore_first (sl : Str) (x : Char) (xs : Str) (p : Str × Str)
    (h : spanCore sl (x :: xs) = some p) : x.toLower = 's' := by
  match xs with
  | b :: d :: e :: r3 =>
    simp only [spanCore] at h
    split_ifs at h with hx
    simp only [Bool.and_eq_true, decide_eq_true_eq] at hx
    exact hx.1.1.1
  | [] => simp [spanCore] at h
  | [b] => simp [spanCore] at h
  | [b, d] => simp [spanCore] at h

theorem matchOpen_sub (s : Str) (p : Str × Str) (h : matchOpenAt s = some p) :
    matchTagAt s = some p := by
  match s with
  | [] => simp [matchOpenAt] at h
  | c :: r1 =>
    simp only [matchOpenAt] at h
    split_ifs at h with hc
    simp only [matchTagAt]
    rw [if_pos hc]
    match r1, h with
    | [], h => simp [spanCore] at h
    | c2 :: r2, h =>
      dsimp only
      have hc2 : ¬c2 = '/' := by
        intro he
        have := spanCore_first [] c2 r2 p h
        rw [he] at this
        exact absurd this (by decide)
      rw [if_neg hc2]
      exact h

theorem matchClose_sub (s : Str) (p : Str × Str) (h : matchCloseAt s = some p) :
    matchTagAt s = some p := by
  unfold matchCloseAt at h
  split at h
  next c0 c1 c2 c3 c4 c5 c6 r =>
    split_ifs at h with hx
    simp only [Bool.and_eq_true, decide_eq_true_eq] at hx
    obtain ⟨⟨⟨⟨⟨⟨h0, h1⟩, h2⟩, h3⟩, h4⟩, h5⟩, h6⟩ := hx
    injection h with h
    subst h0; subst h1; subst h6
    rw [← h]
    simp [matchTagAt, spanCore, takeUntil, h2, h3, h4, h5]
  next => simp at h
